import Mathlib

/-!
Verification of the WoundMonitor scoring core (backend/app/models/medgemma.py
and backend/app/agents/wound_agent.py) against its natural-language
specification.

Modelling conventions:
* Python floats are modelled as exact rationals (`ℚ`).  All float values that
  flow through the functions below are small decimal constants and means of
  small integers; for every comparison and rounding step performed by the
  code, the double-precision result and the exact rational result agree
  (there is no reachable value within one rounding error of a decision
  boundary), so the rational model is faithful.
* Python's built-in `round` (banker's rounding, ties to even) is modelled by
  `pyRound`; `round(x, 2)` is modelled by `roundTo2`.
* Python dicts with known key sets are modelled as total or `Option`-valued
  functions from a finite key type; dicts with free-form string keys (the
  parsed JSON payloads fed to `_normalize_bwat_scores`) are modelled as
  association lists `List (String × JVal)` looked up by first match, which
  coincides with dict lookup for duplicate-free key lists.
* String-valued description fields that no claim mentions (the per-dimension
  "type" texts and the "description" field) are elided from the state;
  they are write-only in the functions under study.
-/

namespace WoundMonitor

/-- Python's `round` on the exact rationals reachable in this code:
round-half-to-even (banker's rounding). -/
def pyRound (q : ℚ) : ℤ :=
  if q - ((⌊q⌋ : ℤ) : ℚ) < 1/2 then ⌊q⌋
  else if 1/2 < q - ((⌊q⌋ : ℤ) : ℚ) then ⌊q⌋ + 1
  else if ⌊q⌋ % 2 = 0 then ⌊q⌋ else ⌊q⌋ + 1

/-- Python's `round(x, 2)`. -/
def roundTo2 (q : ℚ) : ℚ := (pyRound (q * 100) : ℚ) / 100

/-- The 13 BWAT items (`BWAT_13_ITEMS` in medgemma.py). -/
inductive BItem
  | size | depth | edges | undermining
  | necrotic_type | necrotic_amount
  | exudate_type | exudate_amount
  | skin_color | edema | induration
  | granulation | epithelialization
  deriving DecidableEq, Repr

/-- `BWAT_13_ITEMS`, in source order. -/
def BWAT_13_ITEMS : List BItem :=
  [.size, .depth, .edges, .undermining,
   .necrotic_type, .necrotic_amount,
   .exudate_type, .exudate_amount,
   .skin_color, .edema, .induration,
   .granulation, .epithelialization]

/-- The dict key used for each item in the model JSON. -/
def itemName : BItem → String
  | .size => "size"
  | .depth => "depth"
  | .edges => "edges"
  | .undermining => "undermining"
  | .necrotic_type => "necrotic_type"
  | .necrotic_amount => "necrotic_amount"
  | .exudate_type => "exudate_type"
  | .exudate_amount => "exudate_amount"
  | .skin_color => "skin_color"
  | .edema => "edema"
  | .induration => "induration"
  | .granulation => "granulation"
  | .epithelialization => "epithelialization"

/-- The four TIME dimensions. -/
inductive Dim
  | tissue | inflammation | moisture | edge
  deriving DecidableEq, Repr

/-- Dimension iteration order used by the source. -/
def DIM_LIST : List Dim := [.tissue, .inflammation, .moisture, .edge]

/-- `BWAT_TO_TIME` in medgemma.py: items mapped to each dimension. -/
def BWAT_TO_TIME : Dim → List BItem
  | .tissue => [.necrotic_type, .necrotic_amount, .granulation]
  | .inflammation => [.skin_color, .edema, .induration]
  | .moisture => [.exudate_type, .exudate_amount]
  | .edge => [.edges, .undermining, .epithelialization]

/-- The five critical red flags. -/
inductive RFlag
  | worms | bone_exposed | purulent_discharge | necrosis_gt50 | severe_undermining
  deriving DecidableEq, Repr

/-- An item dict that may be missing entries (`dict[str, int]` in the source,
restricted to the 13 BWAT keys). -/
abbrev ItemMap : Type := BItem → Option ℤ

/-- `items[i] = v` (dict assignment). -/
def updItem (m : ItemMap) (i : BItem) (v : ℤ) : ItemMap :=
  fun j => if j = i then some v else m j

/-- `items.get(i, d)` (dict lookup with default). -/
def getItem (m : ItemMap) (i : BItem) (d : ℤ) : ℤ := (m i).getD d

/-- `_apply_red_flag_overrides` (medgemma.py lines 754-776): escalate BWAT
items when critical visual flags are present.  `none` models a falsy
`red_flags` argument (Python `None` or `{}`); present flags are read with
`red_flags.get(k)` semantics, so absent keys behave as `false`. -/
def apply_red_flag_overrides (items : ItemMap) (red_flags : Option (RFlag → Bool)) :
    ItemMap :=
  match red_flags with
  | none => items
  | some f =>
    let it := items
    let it := if f .bone_exposed then updItem it .depth 5 else it
    let it :=
      if f .severe_undermining then
        let it' := updItem it .undermining 5
        updItem it' .edges (max (getItem it' .edges 3) 4)
      else it
    let it :=
      if f .necrosis_gt50 then
        let it' := updItem it .necrotic_amount 5
        updItem it' .necrotic_type (max (getItem it' .necrotic_type 3) 3)
      else it
    let it :=
      if f .purulent_discharge then
        let it' := updItem it .exudate_type 5
        updItem it' .exudate_amount (max (getItem it' .exudate_amount 3) 4)
      else it
    let it :=
      if f .worms then
        let it' := updItem it .exudate_type 5
        let it'' := updItem it' .exudate_amount (max (getItem it' .exudate_amount 3) 4)
        updItem it'' .necrotic_amount (max (getItem it'' .necrotic_amount 3) 4)
      else it
    it

/-! ### JSON values and `_normalize_bwat_scores` -/

/-- A value in the parsed model payload, as seen by `_normalize_bwat_scores`.
`num q` covers every value for which Python's `float(val)` succeeds (ints,
floats and numeric strings); `null` is JSON `null` (Python `None`); `other`
covers every value for which `float(val)` raises (non-numeric strings,
lists, dicts, ...). -/
inductive JVal
  | num (q : ℚ)
  | null
  | other
  deriving DecidableEq, Repr

/-- `data.get(k)`: first-match association-list lookup (dicts have unique
keys, so first match is the match). -/
def jget (data : List (String × JVal)) (k : String) : Option JVal :=
  (data.find? (fun p => p.1 == k)).map (·.2)

/-- Key normalisation used by the alternate-key scan:
`k.lower().replace(" ", "_").replace("-", "_")`. -/
def normKey (k : String) : String :=
  (k.toLower.replace " " "_").replace "-" "_"

/-- The alternate-key scan in `_normalize_bwat_scores`: first entry whose
normalised key equals the canonical item name. -/
def altGet (data : List (String × JVal)) (i : BItem) : Option JVal :=
  (data.find? (fun p => normKey p.1 == itemName i)).map (·.2)

/-- The raw value `_normalize_bwat_scores` ends up holding for an item after
the exact lookup and, when that yields `None`, the alternate-key scan. -/
def rawItemVal (data : List (String × JVal)) (i : BItem) : Option JVal :=
  match jget data (itemName i) with
  | none => altGet data i
  | some v => if v = JVal.null then altGet data i else some v

/-- One item of the collection loop of `_normalize_bwat_scores`: `some v`
when the item is found, coerces via `int(round(float(val)))` and lies in
[1,5]; `none` when the loop `continue`s past the item. -/
def collectItem (data : List (String × JVal)) (i : BItem) : Option ℤ :=
  match rawItemVal data i with
  | some (JVal.num q) =>
    let n := pyRound q
    if 1 ≤ n ∧ n ≤ 5 then some n else none
  | _ => none

/-- Per-dimension output of `_normalize_bwat_scores` / entry of a TIME
scores dict.  `score` is the `"score"` key (the 0-1 value), `composite`
the `"bwat_composite"` key; either may be absent in legacy dicts. -/
structure DimEntry where
  score : Option ℚ
  composite : Option ℚ
  deriving DecidableEq, Repr

/-- The `"_bwat"` block: full 13-item map plus the stored total. -/
structure BwatBlock where
  items : BItem → ℤ
  total : ℤ

/-- A TIME-compatible scores dict: the four dimension entries (possibly
absent) and the optional `"_bwat"` block. -/
structure TimeScores where
  dims : Dim → Option DimEntry
  bwat : Option BwatBlock

/-- The item map after the fill-missing-with-3 step of
`_normalize_bwat_scores`. -/
def normItems (data : List (String × JVal)) : BItem → ℤ :=
  fun i => (collectItem data i).getD 3

/-- How many of the 13 items the collection loop found. -/
def normFound (data : List (String × JVal)) : ℕ :=
  (BWAT_13_ITEMS.filter (fun i => (collectItem data i).isSome)).length

/-- The per-dimension composite of `_normalize_bwat_scores`:
`round(sum(dim_scores) / len(dim_scores), 2)`. -/
def dimComposite (data : List (String × JVal)) (d : Dim) : ℚ :=
  roundTo2 (((((BWAT_TO_TIME d).map (normItems data)).sum : ℤ) : ℚ)
    / ((((BWAT_TO_TIME d).map (normItems data)).length : ℕ) : ℚ))

/-- The per-dimension 0-1 score of `_normalize_bwat_scores`:
`round((5.0 - composite) / 4.0, 2)`. -/
def dimScore01 (data : List (String × JVal)) (d : Dim) : ℚ :=
  roundTo2 ((5 - dimComposite data d) / 4)

/-- `_normalize_bwat_scores` (medgemma.py lines 846-925): convert a parsed
flat payload into the canonical scores dict, or `none` when fewer than
`min_items` of the 13 items are found.  The write-only description strings
are elided. -/
def normalize_bwat_scores (data : List (String × JVal)) (min_items : ℕ := 10) :
    Option TimeScores :=
  if normFound data < min_items then none
  else
    some { dims := fun d => some { score := some (dimScore01 data d),
                                   composite := some (dimComposite data d) },
           bwat := some { items := normItems data,
                          total := (BWAT_13_ITEMS.map (normItems data)).sum } }

/-- `_is_degenerate_bwat` (medgemma.py lines 928-932) on a full item map
(the empty-dict branch, which returns `True`, cannot arise for the total
maps produced by `_normalize_bwat_scores`): `len(set(items.values())) == 1`. -/
def is_degenerate_bwat (items : BItem → ℤ) : Bool :=
  ((BWAT_13_ITEMS.map items).dedup).length = 1

/-! ### Median aggregation -/

/-- `statistics.median` on a non-empty list of integers (exact rational
result; Python returns a float `(a+b)/2` for even length). -/
def pyMedian (l : List ℤ) : ℚ :=
  let s := l.insertionSort (· ≤ ·)
  let n := s.length
  if n % 2 = 1 then ((s.getD (n / 2) 0 : ℤ) : ℚ)
  else (((s.getD (n / 2 - 1) 0 + s.getD (n / 2) 0 : ℤ) : ℚ)) / 2

/-- `_aggregate_bwat_items` (medgemma.py lines 935-944): per-item rounded
median across candidates; items present in no candidate default to 3. -/
def aggregate_bwat_items (candidates : List ItemMap) : BItem → ℤ :=
  fun item =>
    let vals := candidates.filterMap (fun c => c item)
    if vals.isEmpty then 3 else pyRound (pyMedian vals)

/-! ### Estimation from legacy TIME scores -/

/-- The flat payload built from a full item map before renormalisation:
item entries in source order plus the numeric `total` and the (string,
hence non-coercible) `description`. -/
def mkItemData (items : BItem → ℤ) (total : ℤ) : List (String × JVal) :=
  BWAT_13_ITEMS.map (fun i => (itemName i, JVal.num (items i)))
    ++ [("total", JVal.num total), ("description", JVal.other)]

/-- `_score_to_bwat` inside `time_scores_to_bwat_estimate`:
`max(1, min(5, round(5.0 - score_01 * 4.0)))`. -/
def score_to_bwat (s : ℚ) : ℤ := max 1 (min 5 (pyRound (5 - s * 4)))

/-- The dimension `"score"` read with a default:
`time_scores.get(dim, {}).get("score", default)`. -/
def dimScore (ts : TimeScores) (d : Dim) (default : ℚ) : ℚ :=
  (((ts.dims d).bind (·.score)).getD default)

/-- `time_scores_to_bwat_estimate` (medgemma.py lines 947-994): back-derive
a 13-item set from the four 0-1 dimension scores via the fixed linear
mapping, clamp to [1,5], and renormalise with `min_items = 13`. -/
def est_items0 (ts : TimeScores) : BItem → ℤ := fun item =>
  match item with
  | .necrotic_type => score_to_bwat (dimScore ts .tissue (1/2))
  | .necrotic_amount => score_to_bwat (dimScore ts .tissue (1/2) * (9/10))
  | .granulation => score_to_bwat (dimScore ts .tissue (1/2) * (11/10))
  | .skin_color => score_to_bwat (dimScore ts .inflammation (1/2))
  | .edema => score_to_bwat (dimScore ts .inflammation (1/2) * (19/20))
  | .induration => score_to_bwat (dimScore ts .inflammation (1/2) * (21/20))
  | .exudate_type => score_to_bwat (dimScore ts .moisture (1/2))
  | .exudate_amount => score_to_bwat (dimScore ts .moisture (1/2) * (9/10))
  | .edges => score_to_bwat (dimScore ts .edge (1/2))
  | .undermining => score_to_bwat (dimScore ts .edge (1/2) * (17/20))
  | .epithelialization => score_to_bwat (dimScore ts .edge (1/2) * (11/10))
  | .size => score_to_bwat ((dimScore ts .tissue (1/2) + dimScore ts .edge (1/2)) / 2)
  | .depth => score_to_bwat ((dimScore ts .tissue (1/2) + dimScore ts .inflammation (1/2)) / 2)

/-- The estimated items after the final clamp to [1,5] (already satisfied,
kept as in the source). -/
def est_items (ts : TimeScores) : BItem → ℤ :=
  fun item => max 1 (min 5 (est_items0 ts item))

def time_scores_to_bwat_estimate (ts : TimeScores) : Option TimeScores :=
  normalize_bwat_scores
    (mkItemData (est_items ts) ((BWAT_13_ITEMS.map (est_items ts)).sum)) 13

/-! ### `classify_time` control flow

The model calls are external: each entry of an attempt list is the outcome
of `parse_time_json` on one generated response — `.error ()` when the
attempt raised `ValueError`, `.ok scores` when it parsed.  The per-dimension
`bwat_items` maps and description strings, which no claim mentions, are
elided from the carried state. -/

/-- Attach an estimate to a scores dict:
`scores["_bwat"] = est["_bwat"]` plus the per-dimension
`bwat_composite` updates (dimensions absent from `scores` are skipped;
in the source that case would raise a `KeyError` and is unreachable). -/
def attachEst (scores est : TimeScores) : TimeScores :=
  { dims := fun d =>
      match est.dims d, scores.dims d with
      | some ee, some se => some { se with composite := ee.composite }
      | _, se => se,
    bwat := est.bwat }

/-- The multi-attempt loop of `classify_time` (medgemma.py lines 1658-1682):
accumulate non-degenerate candidate item sets and the last parsed scores,
breaking once two candidates exist. -/
def ct_loop : List (Except Unit TimeScores) → List (BItem → ℤ) →
    Option TimeScores → List (BItem → ℤ) × Option TimeScores
  | [], cands, last => (cands, last)
  | (Except.error _) :: rest, cands, last => ct_loop rest cands last
  | (Except.ok scores) :: rest, cands, last =>
    let last' := some scores
    let cands' :=
      match scores.bwat with
      | some b => if is_degenerate_bwat b.items then cands else cands ++ [b.items]
      | none => cands
    if 2 ≤ cands'.length then (cands', last') else ct_loop rest cands' last'

/-- The aggregation block of `classify_time` (medgemma.py lines 1687-1694):
per-item median aggregation, total recomputed as the sum of the aggregated
items, then renormalisation with `min_items = 13`. -/
def aggregate_candidates (cands : List (BItem → ℤ)) : Option TimeScores :=
  let agg_items := aggregate_bwat_items (cands.map (fun c => fun i => some (c i)))
  let agg_total := (BWAT_13_ITEMS.map agg_items).sum
  normalize_bwat_scores (mkItemData agg_items agg_total) 13

/-- The legacy-TIME fallback loop of `classify_time` (medgemma.py lines
1698-1733): on a parsed attempt without `_bwat`, estimate items from the
TIME scores, skip the attempt when the estimated total is ≥ 60, otherwise
attach the estimate and return. -/
def legacy_go : List (Except Unit TimeScores) → Except Unit TimeScores
  | [] => Except.error ()
  | (Except.error _) :: rest => legacy_go rest
  | (Except.ok scores) :: rest =>
    match scores.bwat with
    | some _ => Except.ok scores
    | none =>
      match time_scores_to_bwat_estimate scores with
      | some est =>
        match est.bwat with
        | some b =>
          if 60 ≤ b.total then legacy_go rest else Except.ok (attachEst scores est)
        | none => Except.ok scores
      | none => Except.ok scores

/-- `MedGemmaWrapper.classify_time` (medgemma.py lines 1625-1733) over the
outcomes of its five main attempts and its two legacy attempts. -/
def classify_time (mainAttempts legacyAttempts : List (Except Unit TimeScores)) :
    Except Unit TimeScores :=
  let p := ct_loop mainAttempts [] none
  let candidates := p.1
  let last_scores := p.2
  if candidates.isEmpty then legacy_go legacyAttempts
  else
    match last_scores with
    | some ls =>
      if candidates.length = 1 then Except.ok ls
      else
        match aggregate_candidates candidates with
        | some agg => Except.ok agg
        | none => legacy_go legacyAttempts
    | none =>
      match aggregate_candidates candidates with
      | some agg => Except.ok agg
      | none => legacy_go legacyAttempts

/-! ### Orchestrator Step 2b (wound_agent.py lines 428-474) -/

/-- `all_zero` in Step 2b:
`all(time_scores.get(d, {}).get("score", 0) == 0 for d in ...)`. -/
def all_zero_time (ts : TimeScores) : Bool :=
  DIM_LIST.all (fun d => dimScore ts d 0 == 0)

/-- `has_bwat` in Step 2b:
`"_bwat" in time_scores and time_scores["_bwat"].get("total", 0) > 0`. -/
def step2b_has_bwat (ts : TimeScores) : Bool :=
  match ts.bwat with
  | some b => decide (0 < b.total)
  | none => false

/-- The all-zero branch's merge (wound_agent.py lines 466-472): replace the
dimension entries with the fallback's, attach the estimate's composites,
and install the estimated `_bwat` block. -/
def mergeFallback (ts ft est : TimeScores) : TimeScores :=
  { dims := fun d =>
      let base := match ft.dims d with
        | some fe => some fe
        | none => ts.dims d
      match est.dims d, base with
      | some ee, some be => some { be with composite := ee.composite }
      | _, be => be,
    bwat := est.bwat }

/-- Step 2b of `WoundAgent.analyze` (wound_agent.py lines 428-474): ensure
BWAT data exists, estimating from the TIME dimension scores when item-level
data is absent.  `fallback_time` is the output of
`zeroshot_to_time_fallback(zeroshot)`, a function of the external zero-shot
probabilities, supplied here as an input (`none` models a falsy result). -/
def step2b (ts : TimeScores) (fallback_time : Option TimeScores) : TimeScores :=
  if !(step2b_has_bwat ts) && !(all_zero_time ts) then
    match time_scores_to_bwat_estimate ts with
    | some est => attachEst ts est
    | none => ts
  else if !(step2b_has_bwat ts) && all_zero_time ts then
    match fallback_time with
    | some ft =>
      if DIM_LIST.any (fun d => decide (0 < dimScore ft d 0)) then
        match time_scores_to_bwat_estimate ft with
        | some est => mergeFallback ts ft est
        | none => ts
      else ts
    | none => ts
  else ts

/-! ### Trajectory (wound_agent.py lines 176-209 and 483-503) -/

/-- `_compute_trajectory`: compare the means of the dimension scores present
in both the current scores dict and the previous record.  `previous`
carries the prior assessment's `{dim}_score` columns; `change_score` is
accepted and, as in the source, unused. -/
def compute_trajectory (current_scores : TimeScores) (previous : Dim → Option ℚ)
    (change_score : ℚ) : String :=
  let acc := DIM_LIST.foldl
    (fun (a : ℚ × ℚ × ℕ) dim =>
      match (current_scores.dims dim).bind (·.score), previous dim with
      | some c, some p => (a.1 + c, a.2.1 + p, a.2.2 + 1)
      | _, _ => a)
    (0, 0, 0)
  let count := acc.2.2
  if count = 0 then "stable"
  else
    let curr_avg := acc.1 / (count : ℚ)
    let prev_avg := acc.2.1 / (count : ℚ)
    let delta := curr_avg - prev_avg
    if 1/20 < delta then "improving"
    else if delta < -(1/20) then "deteriorating"
    else "stable"

/-- The previous-assessment record as Step 4 of `WoundAgent.analyze` sees
it: truthiness of its stored embedding (the store's analyzed-visit marker)
and its four dimension score columns. -/
structure PrevRecord where
  embedding : Bool
  dimScores : Dim → Option ℚ

/-- Step 4 of `WoundAgent.analyze` (wound_agent.py lines 483-503): the
trajectory stays `"baseline"` unless a previous record with an embedding
exists, in which case `_compute_trajectory` runs. -/
def trajectory_for (previous : Option PrevRecord) (current : TimeScores)
    (change_score : ℚ) : String :=
  match previous with
  | some p =>
    if p.embedding then compute_trajectory current p.dimScores change_score
    else "baseline"
  | none => "baseline"

/-! ### Alert state machine (wound_agent.py lines 212-280) -/

/-- The contradiction result dict: `{"contradiction": bool, "detail": ...}`.
`detail = none` models a `None` detail (the key is always present in the
dicts the pipeline builds, so the `'N/A'` default of
`contradiction.get('detail', 'N/A')` is unreachable and a `None` detail
renders as `"None"` in the f-string). -/
structure Contra where
  contradiction : Bool
  detail : Option String
  deriving DecidableEq, Repr

/-- An alert: `{"level": ..., "detail": ...}`. -/
structure Alert where
  level : String
  detail : Option String
  deriving DecidableEq, Repr

/-- The BWAT total `_determine_alert` reads:
`bwat.get("total", 0) if bwat else 0`. -/
def alertBwatTotal (time_scores : TimeScores) : ℤ :=
  match time_scores.bwat with
  | some b => b.total
  | none => 0

/-- The flagged-condition names of `_determine_alert`: empty unless
`critical_flags` is truthy (a non-empty dict) and holds a true flag. -/
def flaggedList (critical_flags : Option (List (String × Bool))) : List String :=
  match critical_flags with
  | some fl => if fl.isEmpty then [] else (fl.filter (·.2)).map (·.1)
  | none => []

/-- Base level and detail from the BWAT total (`_determine_alert`,
wound_agent.py lines 242-254). -/
def alert_base (bwat_total : ℤ) : String × Option String :=
  if 56 ≤ bwat_total then
    ("red", some "Critical wound status — immediate clinical review required.")
  else if 47 ≤ bwat_total then
    ("orange", some "Severe wound — specialist evaluation recommended.")
  else if 34 ≤ bwat_total then
    ("yellow", some "Moderate wound — consider care plan review.")
  else ("green", none)

/-- Deteriorating-trajectory escalation (`_determine_alert`,
wound_agent.py lines 256-266). -/
def alert_traj (trajectory : String) (s : String × Option String) :
    String × Option String :=
  if trajectory == "deteriorating" then
    if s.1 == "green" then ("yellow", some "Wound is deteriorating since last visit.")
    else if s.1 == "yellow" then ("orange", some "Wound is deteriorating — reassess interventions.")
    else if s.1 == "orange" then ("red", some "Critical — wound deteriorating with severe BWAT score.")
    else s
  else s

/-- The contradiction message `f"Contradiction: {contradiction.get('detail', 'N/A')}"`
(the pipeline always stores the `detail` key, so a `None` detail renders
as `"None"` and the `'N/A'` default is unreachable). -/
def contra_msg (c : Contra) : String :=
  "Contradiction: " ++ (match c.detail with | some s => s | none => "None")

/-- Contradiction escalation (`_determine_alert`, wound_agent.py lines
268-278). -/
def alert_contra (c : Contra) (s : String × Option String) :
    String × Option String :=
  if c.contradiction then
    if s.1 == "green" then ("yellow", some (contra_msg c))
    else if s.1 == "yellow" then
      ("orange", some ("Moderate wound with contradiction. " ++ contra_msg c))
    else
      match s.2 with
      | some d => (s.1, some (d ++ " " ++ contra_msg c))
      | none => s
  else s

/-- `_determine_alert`: red-flag override, base level from the BWAT total,
then one-step escalations for a deteriorating trajectory and a detected
contradiction. -/
def determine_alert (trajectory : String) (time_scores : TimeScores)
    (contradiction : Contra) (critical_flags : Option (List (String × Bool))) :
    Alert :=
  let flagged := flaggedList critical_flags
  if !flagged.isEmpty then
    { level := "red",
      detail := some ("Critical visual flag detected: "
        ++ String.intercalate ", " flagged ++ ".") }
  else
    let s3 := alert_contra contradiction
      (alert_traj trajectory (alert_base (alertBwatTotal time_scores)))
    { level := s3.1, detail := s3.2 }

/-! ### Rule-based contradiction detection (wound_agent.py lines 121-167) -/

/-- `_POSITIVE_KEYWORDS`. -/
def POSITIVE_KEYWORDS : List String :=
  ["better", "improving", "improvement", "healing", "healed", "good progress",
   "cleaner", "contracting", "less pain", "less drainage", "resolved",
   "granulation", "epithelializing", "looks good", "looks great"]

/-- `_NEGATIVE_KEYWORDS`. -/
def NEGATIVE_KEYWORDS : List String :=
  ["worse", "worsening", "deteriorat", "infect", "necrotic", "odor",
   "more pain", "increased", "inflamed", "undermined", "purulent",
   "slough", "dehiscence", "no improvement", "not healing"]

/-- Contiguous-sublist search on character lists. -/
def subSearch (needle : List Char) : List Char → Bool
  | [] => needle.isEmpty
  | c :: rest => needle.isPrefixOf (c :: rest) || subSearch needle rest

/-- Python's substring test `needle in hay`. -/
def contains_sub (hay needle : String) : Bool :=
  subSearch needle.toList hay.toList

/-- `rule_based_contradiction`: keyword pre-check; `none` when ambiguous
(defer to the model). -/
def rule_based_contradiction (trajectory nurse_notes : String) : Option Contra :=
  let notes_lower := nurse_notes.toLower
  let has_positive := POSITIVE_KEYWORDS.any (fun kw => contains_sub notes_lower kw)
  let has_negative := NEGATIVE_KEYWORDS.any (fun kw => contains_sub notes_lower kw)
  if has_positive && !has_negative && (trajectory == "deteriorating") then
    some { contradiction := true,
           detail := some ("Nurse notes indicate improvement while AI assessment shows deterioration. "
             ++ "Clinical review recommended to resolve this discrepancy.") }
  else if has_negative && !has_positive && (trajectory == "improving") then
    some { contradiction := true,
           detail := some ("Nurse notes indicate worsening while AI assessment shows improvement. "
             ++ "Clinical review recommended to resolve this discrepancy.") }
  else none

/-! ### Model arbitration (`detect_contradiction`, medgemma.py 1815-1852) -/

/-- A parsed JSON value as returned by `json.loads` inside
`parse_json_safe`.  A parse failure makes `parse_json_safe` return the
empty dict, i.e. `obj []`, never an error. -/
inductive Json
  | obj (kvs : List (String × Json))
  | arr (elems : List Json)
  | str (s : String)
  | num (q : ℚ)
  | bool (b : Bool)
  | null

/-- `dict.get` on a parsed JSON object. -/
def jsonLookup : List (String × Json) → String → Option Json
  | [], _ => none
  | (k, v) :: rest, key => if k == key then some v else jsonLookup rest key

/-- Python truthiness, `bool(v)`, on a JSON value. -/
def json_truthy : Json → Bool
  | .obj kvs => !kvs.isEmpty
  | .arr l => !l.isEmpty
  | .str s => !(s == "")
  | .num q => !(q == 0)
  | .bool b => b
  | .null => false

/-- The result dict of `detect_contradiction`. -/
structure ContraJ where
  contradiction : Bool
  detail : Option Json

/-- `MedGemmaWrapper.detect_contradiction` over the outcome of the guarded
region: `.error ()` models an exception from `self._generate` (caught,
fail-open); `.ok j` is the value `parse_json_safe` produced.  The
field extraction runs outside the `try`, so a payload that parses to a
non-object raises (`AttributeError` on `.get`), modelled as `.error ()`
on the result side. -/
def detect_contradiction (response : Except Unit Json) : Except Unit ContraJ :=
  match response with
  | Except.error _ => Except.ok { contradiction := false, detail := none }
  | Except.ok j =>
    match j with
    | Json.obj kvs =>
      let raw_flag := (jsonLookup kvs "contradiction").getD (Json.bool false)
      let flag :=
        match raw_flag with
        | Json.str s =>
          (s.toLower.trim == "true") || (s.toLower.trim == "yes")
            || (s.toLower.trim == "1")
        | v => json_truthy v
      Except.ok { contradiction := flag, detail := jsonLookup kvs "detail" }
    | _ => Except.error ()

/-! ### Arithmetic facts about the rounding helpers -/

theorem pyRound_intCast (n : ℤ) : pyRound (n : ℚ) = n := by
  unfold pyRound
  rw [Int.floor_intCast]
  norm_num

theorem pyRound_mono {p q : ℚ} (h : p ≤ q) : pyRound p ≤ pyRound q := by
  unfold pyRound
  have hf : ⌊p⌋ ≤ ⌊q⌋ := Int.floor_le_floor h
  rcases lt_or_eq_of_le hf with hlt | heq
  · have h1 : (if p - (⌊p⌋ : ℚ) < 1/2 then ⌊p⌋
        else if 1/2 < p - (⌊p⌋ : ℚ) then ⌊p⌋ + 1
        else if ⌊p⌋ % 2 = 0 then ⌊p⌋ else ⌊p⌋ + 1) ≤ ⌊p⌋ + 1 := by
      split_ifs <;> omega
    have h2 : ⌊q⌋ ≤ (if q - (⌊q⌋ : ℚ) < 1/2 then ⌊q⌋
        else if 1/2 < q - (⌊q⌋ : ℚ) then ⌊q⌋ + 1
        else if ⌊q⌋ % 2 = 0 then ⌊q⌋ else ⌊q⌋ + 1) := by
      split_ifs <;> omega
    omega
  · rw [← heq]
    have hr : p - (⌊p⌋ : ℚ) ≤ q - (⌊p⌋ : ℚ) := by linarith
    split_ifs <;> first | omega | linarith


theorem pyRound_le_of_le {q : ℚ} {b : ℤ} (h : q ≤ (b : ℚ)) : pyRound q ≤ b := by
  have := pyRound_mono h
  rwa [pyRound_intCast] at this

theorem le_pyRound_of_le {q : ℚ} {a : ℤ} (h : (a : ℚ) ≤ q) : a ≤ pyRound q := by
  have := pyRound_mono h
  rwa [pyRound_intCast] at this

theorem roundTo2_mono {p q : ℚ} (h : p ≤ q) : roundTo2 p ≤ roundTo2 q := by
  unfold roundTo2
  have h100 : p * 100 ≤ q * 100 := by linarith
  have := pyRound_mono h100
  have hc : ((pyRound (p * 100) : ℤ) : ℚ) ≤ ((pyRound (q * 100) : ℤ) : ℚ) := by
    exact_mod_cast this
  linarith

theorem roundTo2_bounds {q : ℚ} {a b : ℤ} (h1 : (a : ℚ) ≤ q) (h2 : q ≤ (b : ℚ)) :
    (a : ℚ) ≤ roundTo2 q ∧ roundTo2 q ≤ (b : ℚ) := by
  unfold roundTo2
  have ha : (a * 100 : ℤ) ≤ pyRound (q * 100) := by
    apply le_pyRound_of_le
    push_cast
    linarith
  have hb : pyRound (q * 100) ≤ (b * 100 : ℤ) := by
    apply pyRound_le_of_le
    push_cast
    linarith
  constructor
  · rw [le_div_iff (by norm_num : (0:ℚ) < 100)]
    exact_mod_cast ha
  · rw [div_le_iff (by norm_num : (0:ℚ) < 100)]
    exact_mod_cast hb

/-- Sum bounds for a list of integers with pointwise bounds. -/
theorem list_sum_bounds {l : List ℤ} {lo hi : ℤ}
    (h : ∀ x ∈ l, lo ≤ x ∧ x ≤ hi) :
    lo * l.length ≤ l.sum ∧ l.sum ≤ hi * l.length := by
  induction l with
  | nil => simp
  | cons a t ih =>
    have ha := h a (by simp)
    have ht : ∀ x ∈ t, lo ≤ x ∧ x ≤ hi := fun x hx => h x (by simp [hx])
    obtain ⟨ih1, ih2⟩ := ih ht
    simp only [List.sum_cons, List.length_cons]
    push_cast
    constructor <;> nlinarith [ha.1, ha.2]

/-- Mean bounds for a non-empty list of integers with pointwise bounds. -/
theorem list_mean_bounds {l : List ℤ} {lo hi : ℤ} (hne : l ≠ [])
    (h : ∀ x ∈ l, lo ≤ x ∧ x ≤ hi) :
    (lo : ℚ) ≤ (l.sum : ℚ) / (l.length : ℚ) ∧
      (l.sum : ℚ) / (l.length : ℚ) ≤ (hi : ℚ) := by
  have hlen : 0 < l.length := List.length_pos.mpr hne
  have hlenQ : (0 : ℚ) < (l.length : ℚ) := by exact_mod_cast hlen
  obtain ⟨h1, h2⟩ := list_sum_bounds h
  constructor
  · rw [le_div_iff hlenQ]
    exact_mod_cast h1
  · rw [div_le_iff hlenQ]
    exact_mod_cast h2

/-! ### Facts about the normaliser -/

theorem collectItem_bounds {data : List (String × JVal)} {i : BItem} {v : ℤ}
    (h : collectItem data i = some v) : 1 ≤ v ∧ v ≤ 5 := by
  unfold collectItem at h
  rcases hr : rawItemVal data i with - | jv
  · rw [hr] at h
    simp at h
  · rcases jv with q | - | -
    · rw [hr] at h
      simp only [] at h
      split at h
      · rename_i hcond
        cases h
        exact hcond
      · cases h
    · rw [hr] at h
      simp at h
    · rw [hr] at h
      simp at h

theorem normItems_bounds (data : List (String × JVal)) (i : BItem) :
    1 ≤ normItems data i ∧ normItems data i ≤ 5 := by
  unfold normItems
  rcases hc : collectItem data i with - | v
  · simp
  · simpa using collectItem_bounds hc

theorem normItems_of_missing {data : List (String × JVal)} {i : BItem}
    (h : collectItem data i = none) : normItems data i = 3 := by
  simp [normItems, h]

theorem normalize_eq_some {data : List (String × JVal)} {n : ℕ} {r : TimeScores}
    (h : normalize_bwat_scores data n = some r) :
    r = { dims := fun d => some { score := some (dimScore01 data d),
                                  composite := some (dimComposite data d) },
          bwat := some { items := normItems data,
                         total := (BWAT_13_ITEMS.map (normItems data)).sum } } := by
  unfold normalize_bwat_scores at h
  split at h
  · cases h
  · exact (Option.some.inj h).symm

theorem dim_items_ne_nil {data : List (String × JVal)} (d : Dim) :
    (BWAT_TO_TIME d).map (normItems data) ≠ [] := by
  cases d <;> simp [BWAT_TO_TIME]

theorem dimComposite_bounds (data : List (String × JVal)) (d : Dim) :
    1 ≤ dimComposite data d ∧ dimComposite data d ≤ 5 := by
  unfold dimComposite
  have hb : ∀ x ∈ (BWAT_TO_TIME d).map (normItems data), (1:ℤ) ≤ x ∧ x ≤ 5 := by
    intro x hx
    obtain ⟨i, -, rfl⟩ := List.mem_map.mp hx
    exact normItems_bounds data i
  obtain ⟨h1, h2⟩ := list_mean_bounds (dim_items_ne_nil d) hb
  have hr := roundTo2_bounds (a := 1) (b := 5) h1 h2
  exact ⟨by exact_mod_cast hr.1, by exact_mod_cast hr.2⟩

theorem dimScore01_bounds (data : List (String × JVal)) (d : Dim) :
    0 ≤ dimScore01 data d ∧ dimScore01 data d ≤ 1 := by
  unfold dimScore01
  obtain ⟨h1, h2⟩ := dimComposite_bounds data d
  have hlo : ((0:ℤ) : ℚ) ≤ (5 - dimComposite data d) / 4 := by
    push_cast
    linarith
  have hhi : (5 - dimComposite data d) / 4 ≤ ((1:ℤ) : ℚ) := by
    push_cast
    linarith
  have := roundTo2_bounds hlo hhi
  simpa using this

/-! ### Claim C3 -/

/-- C3 (amended): whenever `_normalize_bwat_scores` succeeds, the result
holds all 13 items with integer values in [1,5], fills items the collection
loop missed with the neutral 3, stores `total` as the sum of the 13 item
values (hence in [13,65]), and gives every dimension a composite equal to
the mean of its mapped items rounded to two decimals and a 0-1 score equal
to `(5 - composite)/4` rounded to two decimals, which lies in [0,1] and is
non-increasing as the composite increases. -/
theorem C3_normalize_invariants (data : List (String × JVal)) (n : ℕ)
    (r : TimeScores) (h : normalize_bwat_scores data n = some r) :
    r.bwat = some { items := normItems data,
                    total := (BWAT_13_ITEMS.map (normItems data)).sum } ∧
    (∀ i, 1 ≤ normItems data i ∧ normItems data i ≤ 5) ∧
    (∀ i, collectItem data i = none → normItems data i = 3) ∧
    13 ≤ (BWAT_13_ITEMS.map (normItems data)).sum ∧
    (BWAT_13_ITEMS.map (normItems data)).sum ≤ 65 ∧
    (∀ d, r.dims d = some { score := some (dimScore01 data d),
                            composite := some (dimComposite data d) } ∧
      dimComposite data d
        = roundTo2 (((((BWAT_TO_TIME d).map (normItems data)).sum : ℤ) : ℚ)
            / ((((BWAT_TO_TIME d).map (normItems data)).length : ℕ) : ℚ)) ∧
      dimScore01 data d = roundTo2 ((5 - dimComposite data d) / 4) ∧
      1 ≤ dimComposite data d ∧ dimComposite data d ≤ 5 ∧
      0 ≤ dimScore01 data d ∧ dimScore01 data d ≤ 1) ∧
    (∀ (data2 : List (String × JVal)) (d d2 : Dim),
      dimComposite data d ≤ dimComposite data2 d2 →
      dimScore01 data2 d2 ≤ dimScore01 data d) := by
  have hkey := normalize_eq_some h
  subst hkey
  have hmem : ∀ x ∈ BWAT_13_ITEMS.map (normItems data), (1:ℤ) ≤ x ∧ x ≤ 5 := by
    intro x hx
    obtain ⟨i, -, rfl⟩ := List.mem_map.mp hx
    exact normItems_bounds data i
  have hlen : (BWAT_13_ITEMS.map (normItems data)).length = 13 := by
    simp [BWAT_13_ITEMS]
  obtain ⟨hs1, hs2⟩ := list_sum_bounds hmem
  rw [hlen] at hs1 hs2
  refine ⟨rfl, normItems_bounds data, fun i hi => normItems_of_missing hi,
    by omega, by omega, ?_, ?_⟩
  · intro d
    exact ⟨rfl, rfl, rfl, (dimComposite_bounds data d).1,
      (dimComposite_bounds data d).2, (dimScore01_bounds data d).1,
      (dimScore01_bounds data d).2⟩
  · intro data2 d d2 hc
    unfold dimScore01
    apply roundTo2_mono
    linarith

/-- A concrete full payload whose tissue items are 1, 1, 2. -/
def c3_data : List (String × JVal) :=
  [("size", JVal.num 2), ("depth", JVal.num 3), ("edges", JVal.num 3),
   ("undermining", JVal.num 3), ("necrotic_type", JVal.num 1),
   ("necrotic_amount", JVal.num 1), ("exudate_type", JVal.num 3),
   ("exudate_amount", JVal.num 3), ("skin_color", JVal.num 3),
   ("edema", JVal.num 3), ("induration", JVal.num 3),
   ("granulation", JVal.num 2), ("epithelialization", JVal.num 3)]

/-- Dimension entry accessor on an optional scores dict. -/
def getDimEntryOf (r : Option TimeScores) (d : Dim) : Option DimEntry :=
  r.bind (fun ts => ts.dims d)

/-- Item accessor on an optional scores dict. -/
def getItemOf (r : Option TimeScores) (i : BItem) : Option ℤ :=
  r.bind (fun ts => ts.bwat.map (fun b => b.items i))

/-- C3 counterexample to the claim as stated: on a payload whose tissue
items come out as 1, 1, 2, the stored composite is 1.33 — not the exact
mean 4/3 — and the stored 0-1 score is 0.92 — not the exact
`(5 - 1.33)/4 = 0.9175`; both equalities in the claim hold only up to
rounding to two decimals. -/
theorem C3_counterexample :
    getItemOf (normalize_bwat_scores c3_data 10) BItem.necrotic_type = some 1 ∧
    getItemOf (normalize_bwat_scores c3_data 10) BItem.necrotic_amount = some 1 ∧
    getItemOf (normalize_bwat_scores c3_data 10) BItem.granulation = some 2 ∧
    getDimEntryOf (normalize_bwat_scores c3_data 10) Dim.tissue
      = some { score := some (23/25), composite := some (133/100) } ∧
    ¬ ((133 : ℚ)/100 = ((1 : ℚ) + 1 + 2) / 3) ∧
    ¬ ((23 : ℚ)/25 = (5 - (133 : ℚ)/100) / 4) := by
  refine ⟨by with_unfolding_all decide, by with_unfolding_all decide,
    by with_unfolding_all decide, by with_unfolding_all decide,
    by norm_num, by norm_num⟩

/-- C3 witness: the invariants instantiated on the concrete payload. -/
theorem C3_normalize_invariants_witness :
    (1 ≤ normItems c3_data BItem.size ∧ normItems c3_data BItem.size ≤ 5) ∧
    13 ≤ (BWAT_13_ITEMS.map (normItems c3_data)).sum ∧
    0 ≤ dimScore01 c3_data Dim.tissue := by
  have h : normalize_bwat_scores c3_data 10 = some
      { dims := fun d => some { score := some (dimScore01 c3_data d),
                                composite := some (dimComposite c3_data d) },
        bwat := some { items := normItems c3_data,
                       total := (BWAT_13_ITEMS.map (normItems c3_data)).sum } } := by
    with_unfolding_all rfl
  obtain ⟨-, hrange, -, htot, -, hdims, -⟩ :=
    C3_normalize_invariants c3_data 10 _ h
  exact ⟨hrange BItem.size, htot, (hdims Dim.tissue).2.2.2.2.2.1⟩

/-! ### Pointwise order helpers for the override stages -/

/-- `m'` dominates `m` pointwise on present entries. -/
def PtLe (m m' : ItemMap) : Prop :=
  ∀ i v, m i = some v → ∃ w, m' i = some w ∧ v ≤ w

/-- All present entries of `m` are at most 5. -/
def BndAbove5 (m : ItemMap) : Prop :=
  ∀ i v, m i = some v → v ≤ 5

theorem PtLe.rfl (m : ItemMap) : PtLe m m :=
  fun i v hv => ⟨v, hv, le_refl v⟩

theorem PtLe.trans {m1 m2 m3 : ItemMap} (h12 : PtLe m1 m2) (h23 : PtLe m2 m3) :
    PtLe m1 m3 := by
  intro i v hv
  obtain ⟨w, hw, hvw⟩ := h12 i v hv
  obtain ⟨u, hu, hwu⟩ := h23 i w hw
  exact ⟨u, hu, le_trans hvw hwu⟩

theorem ptLe_updItem_force {m : ItemMap} (j : BItem) (h5 : BndAbove5 m) :
    PtLe m (updItem m j 5) := by
  intro i v hv
  by_cases hij : i = j
  · subst hij
    exact ⟨5, by simp [updItem], h5 i v hv⟩
  · exact ⟨v, by simp [updItem, hij, hv], le_refl v⟩

theorem ptLe_updItem_max {m : ItemMap} (j : BItem) (k : ℤ) :
    PtLe m (updItem m j (max (getItem m j 3) k)) := by
  intro i v hv
  by_cases hij : i = j
  · subst hij
    refine ⟨max (getItem m i 3) k, by simp [updItem], ?_⟩
    have : getItem m i 3 = v := by simp [getItem, hv]
    rw [this]
    exact le_max_left v k
  · exact ⟨v, by simp [updItem, hij, hv], le_refl v⟩

theorem bnd_updItem {m : ItemMap} (j : BItem) (x : ℤ) (hx : x ≤ 5)
    (h5 : BndAbove5 m) : BndAbove5 (updItem m j x) := by
  intro i v hv
  by_cases hij : i = j
  · subst hij
    simp [updItem] at hv
    omega
  · simp [updItem, hij] at hv
    exact h5 i v hv

theorem bnd_max_val {m : ItemMap} (j : BItem) (k : ℤ) (hk : k ≤ 5)
    (h5 : BndAbove5 m) : max (getItem m j 3) k ≤ 5 := by
  have : getItem m j 3 ≤ 5 := by
    unfold getItem
    rcases hm : m j with - | v
    · simp
    · simpa using h5 j v hm
  omega


/-! ### Claims C4 and C10: red-flag overrides -/

/-- C4: on any item map with values in [1,5] and any red-flag map,
`_apply_red_flag_overrides` forces/raises exactly the documented items and
never decreases any item. -/
theorem C4_red_flag_overrides (items : ItemMap) (f : RFlag → Bool)
    (hrange : ∀ i v, items i = some v → 1 ≤ v ∧ v ≤ 5) :
    (f RFlag.bone_exposed = true →
      apply_red_flag_overrides items (some f) BItem.depth = some 5) ∧
    (f RFlag.severe_undermining = true →
      apply_red_flag_overrides items (some f) BItem.undermining = some 5 ∧
      ∃ w, apply_red_flag_overrides items (some f) BItem.edges = some w ∧ 4 ≤ w) ∧
    (f RFlag.necrosis_gt50 = true →
      apply_red_flag_overrides items (some f) BItem.necrotic_amount = some 5 ∧
      ∃ w, apply_red_flag_overrides items (some f) BItem.necrotic_type = some w ∧ 3 ≤ w) ∧
    (f RFlag.purulent_discharge = true →
      apply_red_flag_overrides items (some f) BItem.exudate_type = some 5 ∧
      ∃ w, apply_red_flag_overrides items (some f) BItem.exudate_amount = some w ∧ 4 ≤ w) ∧
    (f RFlag.worms = true →
      apply_red_flag_overrides items (some f) BItem.exudate_type = some 5 ∧
      (∃ w, apply_red_flag_overrides items (some f) BItem.exudate_amount = some w ∧ 4 ≤ w) ∧
      (∃ w, apply_red_flag_overrides items (some f) BItem.necrotic_amount = some w ∧ 4 ≤ w)) ∧
    (∀ i v, items i = some v →
      ∃ w, apply_red_flag_overrides items (some f) i = some w ∧ v ≤ w) := by
  refine ⟨?_, ?_, ?_, ?_, ?_, ?_⟩
  · intro hfl
    simp only [apply_red_flag_overrides, hfl, if_true]
    split_ifs <;> simp [updItem, getItem]
  · intro hfl
    simp only [apply_red_flag_overrides, hfl, if_true]
    constructor
    · split_ifs <;> simp [updItem, getItem]
    · split_ifs <;> simp [updItem, getItem] <;> omega
  · intro hfl
    simp only [apply_red_flag_overrides, hfl, if_true]
    constructor
    · split_ifs <;> simp [updItem, getItem]
    · split_ifs <;> simp [updItem, getItem] <;> omega
  · intro hfl
    simp only [apply_red_flag_overrides, hfl, if_true]
    constructor
    · split_ifs <;> simp [updItem, getItem]
    · split_ifs <;> simp [updItem, getItem] <;> omega
  · intro hfl
    simp only [apply_red_flag_overrides, hfl, if_true]
    refine ⟨?_, ?_, ?_⟩ <;> split_ifs <;> simp [updItem, getItem] <;> omega
  · have hbnd0 : BndAbove5 items := fun i v hv => (hrange i v hv).2
    have step_force : ∀ (m : ItemMap) (j : BItem), BndAbove5 m →
        PtLe m (updItem m j 5) ∧ BndAbove5 (updItem m j 5) :=
      fun m j hb => ⟨ptLe_updItem_force j hb, bnd_updItem j 5 (le_refl 5) hb⟩
    have step_max : ∀ (m : ItemMap) (j : BItem) (k : ℤ), k ≤ 5 → BndAbove5 m →
        PtLe m (updItem m j (max (getItem m j 3) k)) ∧
          BndAbove5 (updItem m j (max (getItem m j 3) k)) :=
      fun m j k hk hb =>
        ⟨ptLe_updItem_max j k, bnd_updItem j _ (bnd_max_val j k hk hb) hb⟩
    simp only [apply_red_flag_overrides]
    have chain : ∀ (m : ItemMap), BndAbove5 m → ∀ b : Bool,
        PtLe m (if b then updItem m BItem.depth 5 else m) ∧
          BndAbove5 (if b then updItem m BItem.depth 5 else m) := by
      intro m hb b
      cases b
      · exact ⟨PtLe.rfl m, hb⟩
      · simpa using step_force m BItem.depth hb
    obtain ⟨p1, b1⟩ := chain items hbnd0 (f RFlag.bone_exposed)
    set m1 : ItemMap := if f RFlag.bone_exposed then updItem items BItem.depth 5 else items with hm1
    have stage2 : ∀ (m : ItemMap), BndAbove5 m →
        PtLe m (if f RFlag.severe_undermining then
            updItem (updItem m BItem.undermining 5) BItem.edges
              (max (getItem (updItem m BItem.undermining 5) BItem.edges 3) 4)
          else m) ∧
        BndAbove5 (if f RFlag.severe_undermining then
            updItem (updItem m BItem.undermining 5) BItem.edges
              (max (getItem (updItem m BItem.undermining 5) BItem.edges 3) 4)
          else m) := by
      intro m hb
      cases f RFlag.severe_undermining
      · exact ⟨PtLe.rfl m, hb⟩
      · simp only [if_true]
        obtain ⟨pa, ba⟩ := step_force m BItem.undermining hb
        obtain ⟨pb', bb⟩ := step_max _ BItem.edges 4 (by omega) ba
        exact ⟨pa.trans pb', bb⟩
    obtain ⟨p2, b2⟩ := stage2 m1 b1
    set m2 : ItemMap := if f RFlag.severe_undermining then
        updItem (updItem m1 BItem.undermining 5) BItem.edges
          (max (getItem (updItem m1 BItem.undermining 5) BItem.edges 3) 4)
      else m1 with hm2
    have stage3 : ∀ (m : ItemMap), BndAbove5 m →
        PtLe m (if f RFlag.necrosis_gt50 then
            updItem (updItem m BItem.necrotic_amount 5) BItem.necrotic_type
              (max (getItem (updItem m BItem.necrotic_amount 5) BItem.necrotic_type 3) 3)
          else m) ∧
        BndAbove5 (if f RFlag.necrosis_gt50 then
            updItem (updItem m BItem.necrotic_amount 5) BItem.necrotic_type
              (max (getItem (updItem m BItem.necrotic_amount 5) BItem.necrotic_type 3) 3)
          else m) := by
      intro m hb
      cases f RFlag.necrosis_gt50
      · exact ⟨PtLe.rfl m, hb⟩
      · simp only [if_true]
        obtain ⟨pa, ba⟩ := step_force m BItem.necrotic_amount hb
        obtain ⟨pb', bb⟩ := step_max _ BItem.necrotic_type 3 (by omega) ba
        exact ⟨pa.trans pb', bb⟩
    obtain ⟨p3, b3⟩ := stage3 m2 b2
    set m3 : ItemMap := if f RFlag.necrosis_gt50 then
        updItem (updItem m2 BItem.necrotic_amount 5) BItem.necrotic_type
          (max (getItem (updItem m2 BItem.necrotic_amount 5) BItem.necrotic_type 3) 3)
      else m2 with hm3
    have stage4 : ∀ (m : ItemMap), BndAbove5 m →
        PtLe m (if f RFlag.purulent_discharge then
            updItem (updItem m BItem.exudate_type 5) BItem.exudate_amount
              (max (getItem (updItem m BItem.exudate_type 5) BItem.exudate_amount 3) 4)
          else m) ∧
        BndAbove5 (if f RFlag.purulent_discharge then
            updItem (updItem m BItem.exudate_type 5) BItem.exudate_amount
              (max (getItem (updItem m BItem.exudate_type 5) BItem.exudate_amount 3) 4)
          else m) := by
      intro m hb
      cases f RFlag.purulent_discharge
      · exact ⟨PtLe.rfl m, hb⟩
      · simp only [if_true]
        obtain ⟨pa, ba⟩ := step_force m BItem.exudate_type hb
        obtain ⟨pb', bb⟩ := step_max _ BItem.exudate_amount 4 (by omega) ba
        exact ⟨pa.trans pb', bb⟩
    obtain ⟨p4, b4⟩ := stage4 m3 b3
    set m4 : ItemMap := if f RFlag.purulent_discharge then
        updItem (updItem m3 BItem.exudate_type 5) BItem.exudate_amount
          (max (getItem (updItem m3 BItem.exudate_type 5) BItem.exudate_amount 3) 4)
      else m3 with hm4
    have stage5 : ∀ (m : ItemMap), BndAbove5 m →
        PtLe m (if f RFlag.worms then
            updItem
              (updItem (updItem m BItem.exudate_type 5) BItem.exudate_amount
                (max (getItem (updItem m BItem.exudate_type 5) BItem.exudate_amount 3) 4))
              BItem.necrotic_amount
              (max (getItem
                (updItem (updItem m BItem.exudate_type 5) BItem.exudate_amount
                  (max (getItem (updItem m BItem.exudate_type 5) BItem.exudate_amount 3) 4))
                BItem.necrotic_amount 3) 4)
          else m) := by
      intro m hb
      cases f RFlag.worms
      · exact PtLe.rfl m
      · simp only [if_true]
        obtain ⟨pa, ba⟩ := step_force m BItem.exudate_type hb
        obtain ⟨pb', bb⟩ := step_max _ BItem.exudate_amount 4 (by omega) ba
        obtain ⟨pc, -⟩ := step_max _ BItem.necrotic_amount 4 (by omega) bb
        exact (pa.trans pb').trans pc
    have p5 := stage5 m4 b4
    exact ((((p1.trans p2).trans p3).trans p4).trans p5)

/-- C4 witness: all flags raised on an all-2 item map. -/
theorem C4_red_flag_overrides_witness :
    apply_red_flag_overrides (fun _ => some 2) (some (fun _ => true)) BItem.depth
      = some 5 ∧
    (∃ w, apply_red_flag_overrides (fun _ => some 2) (some (fun _ => true)) BItem.edges
      = some w ∧ 4 ≤ w) := by
  have h := C4_red_flag_overrides (fun _ => some 2) (fun _ => true)
    (by intro i v hv; injection hv with hv; omega)
  exact ⟨h.1 rfl, (h.2.1 rfl).2⟩

/-- C10: the red-flag override writes at most the seven escalation items;
the other six items always come back unchanged, and with no flag set (or a
falsy flag dict) every item is unchanged. -/
theorem C10_red_flag_frame (items : ItemMap) (rf : Option (RFlag → Bool)) :
    (∀ i, i ∈ ([BItem.size, BItem.skin_color, BItem.edema, BItem.induration,
                BItem.granulation, BItem.epithelialization] : List BItem) →
       apply_red_flag_overrides items rf i = items i) ∧
    (∀ i, apply_red_flag_overrides items rf i ≠ items i →
       i ∈ ([BItem.depth, BItem.undermining, BItem.edges, BItem.necrotic_type,
             BItem.necrotic_amount, BItem.exudate_type, BItem.exudate_amount] : List BItem)) ∧
    (rf = none → ∀ i, apply_red_flag_overrides items rf i = items i) ∧
    (∀ f, rf = some f → (∀ g, f g = false) →
       ∀ i, apply_red_flag_overrides items rf i = items i) := by
  have frame : ∀ i, i ∉ ([BItem.depth, BItem.undermining, BItem.edges, BItem.necrotic_type,
      BItem.necrotic_amount, BItem.exudate_type, BItem.exudate_amount] : List BItem) →
      apply_red_flag_overrides items rf i = items i := by
    intro i hni
    simp only [List.mem_cons, List.not_mem_nil, or_false, not_or] at hni
    obtain ⟨h1, h2, h3, h4, h5, h6, h7⟩ := hni
    cases rf with
    | none => rfl
    | some f =>
      simp only [apply_red_flag_overrides]
      split_ifs <;> simp [updItem, h1, h2, h3, h4, h5, h6, h7]
  refine ⟨?_, ?_, ?_, ?_⟩
  · intro i hi
    apply frame
    intro hmem
    simp only [List.mem_cons, List.not_mem_nil, or_false] at hi hmem
    rcases hi with rfl|rfl|rfl|rfl|rfl|rfl <;> simp at hmem
  · intro i hne
    by_contra hmem
    exact hne (frame i hmem)
  · rintro rfl i
    rfl
  · rintro f rfl hf i
    simp [apply_red_flag_overrides, hf]

/-- C10 witness: frame conditions instantiated on a concrete map and flag
set. -/
theorem C10_red_flag_frame_witness :
    apply_red_flag_overrides (fun _ => some 2) (some (fun _ => true)) BItem.size
      = some 2 ∧
    apply_red_flag_overrides (fun _ => some 4) none BItem.depth = some 4 := by
  have h1 := C10_red_flag_frame (fun _ => some 2) (some (fun _ => true))
  have h2 := C10_red_flag_frame (fun _ => some 4) none
  exact ⟨h1.1 BItem.size (by simp), h2.2.2.1 rfl BItem.depth⟩

/-! ### Claim C8: rule-based contradiction -/

/-- C8: `rule_based_contradiction` reports a contradiction with a fixed
templated detail exactly when positive-only keywords meet a deteriorating
trajectory or negative-only keywords meet an improving trajectory; in every
other case — both keyword classes, neither, or any other trajectory — it
returns the ambiguous `none` and defers to model arbitration. -/
theorem C8_rule_based_contradiction (trajectory nurse_notes : String) :
    (POSITIVE_KEYWORDS.any (fun kw => contains_sub nurse_notes.toLower kw) = true →
     NEGATIVE_KEYWORDS.any (fun kw => contains_sub nurse_notes.toLower kw) = false →
     trajectory = "deteriorating" →
     rule_based_contradiction trajectory nurse_notes = some
       { contradiction := true,
         detail := some ("Nurse notes indicate improvement while AI assessment shows deterioration. "
           ++ "Clinical review recommended to resolve this discrepancy.") }) ∧
    (NEGATIVE_KEYWORDS.any (fun kw => contains_sub nurse_notes.toLower kw) = true →
     POSITIVE_KEYWORDS.any (fun kw => contains_sub nurse_notes.toLower kw) = false →
     trajectory = "improving" →
     rule_based_contradiction trajectory nurse_notes = some
       { contradiction := true,
         detail := some ("Nurse notes indicate worsening while AI assessment shows improvement. "
           ++ "Clinical review recommended to resolve this discrepancy.") }) ∧
    (∀ r, rule_based_contradiction trajectory nurse_notes = some r →
     r.contradiction = true ∧
     ((POSITIVE_KEYWORDS.any (fun kw => contains_sub nurse_notes.toLower kw) = true ∧
       NEGATIVE_KEYWORDS.any (fun kw => contains_sub nurse_notes.toLower kw) = false ∧
       trajectory = "deteriorating") ∨
      (NEGATIVE_KEYWORDS.any (fun kw => contains_sub nurse_notes.toLower kw) = true ∧
       POSITIVE_KEYWORDS.any (fun kw => contains_sub nurse_notes.toLower kw) = false ∧
       trajectory = "improving"))) ∧
    (POSITIVE_KEYWORDS.any (fun kw => contains_sub nurse_notes.toLower kw) = true →
     NEGATIVE_KEYWORDS.any (fun kw => contains_sub nurse_notes.toLower kw) = true →
     rule_based_contradiction trajectory nurse_notes = none) ∧
    (POSITIVE_KEYWORDS.any (fun kw => contains_sub nurse_notes.toLower kw) = false →
     NEGATIVE_KEYWORDS.any (fun kw => contains_sub nurse_notes.toLower kw) = false →
     rule_based_contradiction trajectory nurse_notes = none) := by
  unfold rule_based_contradiction
  refine ⟨?_, ?_, ?_, ?_, ?_⟩
  · intro hp hn ht
    simp [hp, hn, ht]
  · intro hn hp ht
    simp [hp, hn, ht]
  · intro r hr
    simp only [] at hr
    split_ifs at hr with h1 h2
    · simp only [Option.some.injEq] at hr
      subst hr
      simp only [Bool.and_eq_true, Bool.not_eq_eq_eq_not, Bool.not_true, beq_iff_eq] at h1
      exact ⟨rfl, Or.inl ⟨h1.1.1, h1.1.2, h1.2⟩⟩
    · simp only [Option.some.injEq] at hr
      subst hr
      simp only [Bool.and_eq_true, Bool.not_eq_eq_eq_not, Bool.not_true, beq_iff_eq] at h2
      exact ⟨rfl, Or.inr ⟨h2.1.1, h2.1.2, h2.2⟩⟩
  · intro hp hn
    simp [hp, hn]
  · intro hp hn
    simp [hp, hn]

/-- C8 witness: positive-only notes with a deteriorating trajectory report
the fixed contradiction; both classes present defer. -/
theorem C8_rule_based_contradiction_witness :
    rule_based_contradiction "deteriorating" "Wound looks GOOD today" = some
      { contradiction := true,
        detail := some ("Nurse notes indicate improvement while AI assessment shows deterioration. "
          ++ "Clinical review recommended to resolve this discrepancy.") } ∧
    rule_based_contradiction "deteriorating" "looks good but worse" = none := by
  constructor
  · exact (C8_rule_based_contradiction "deteriorating" "Wound looks GOOD today").1
      (by with_unfolding_all decide) (by with_unfolding_all decide) rfl
  · exact (C8_rule_based_contradiction "deteriorating" "looks good but worse").2.2.2.1
      (by with_unfolding_all decide) (by with_unfolding_all decide)

/-! ### Claim C9: model arbitration -/

/-- C9 (amended): when the model call fails, `detect_contradiction` is
fail-open: contradiction false with no detail.  When the output parses to a
JSON object it always returns a well-formed result: a missing verdict key
defaults to false, a string verdict is accepted as true exactly for
"true"/"yes"/"1" after lowercasing and stripping, and the object's
`detail` value is passed through unchanged (even when no verdict key is
present).  An output parsing to a non-object JSON value raises — the field
extraction runs outside the `try` block. -/
theorem C9_detect_contradiction (resp : Except Unit Json) :
    (resp = Except.error () →
      detect_contradiction resp = Except.ok { contradiction := false, detail := none }) ∧
    (∀ kvs, resp = Except.ok (Json.obj kvs) →
      ∃ b, detect_contradiction resp
        = Except.ok { contradiction := b, detail := jsonLookup kvs "detail" }) ∧
    (∀ kvs, resp = Except.ok (Json.obj kvs) →
      jsonLookup kvs "contradiction" = none →
      detect_contradiction resp
        = Except.ok { contradiction := false, detail := jsonLookup kvs "detail" }) ∧
    (∀ kvs s, resp = Except.ok (Json.obj kvs) →
      jsonLookup kvs "contradiction" = some (Json.str s) →
      detect_contradiction resp
        = Except.ok
            { contradiction :=
                ((s.toLower.trim == "true") || (s.toLower.trim == "yes")
                  || (s.toLower.trim == "1")),
              detail := jsonLookup kvs "detail" }) ∧
    (∀ j, resp = Except.ok j → (∀ kvs, j ≠ Json.obj kvs) →
      detect_contradiction resp = Except.error ()) := by
  refine ⟨?_, ?_, ?_, ?_, ?_⟩
  · rintro rfl
    rfl
  · rintro kvs rfl
    exact ⟨_, rfl⟩
  · rintro kvs rfl hl
    simp [detect_contradiction, hl, json_truthy]
  · rintro kvs s rfl hl
    simp [detect_contradiction, hl]
  · rintro j rfl hno
    cases j with
    | obj kvs => exact absurd rfl (hno kvs)
    | arr l => rfl
    | str s => rfl
    | num q => rfl
    | bool b => rfl
    | null => rfl

/-- C9 counterexample to the claim as stated: a response that parses to the
bare number 5 makes `detect_contradiction` raise (the `.get` extraction is
outside the `try`), and a parsed object with a `detail` but no verdict
returns that detail rather than none. -/
theorem C9_counterexample :
    detect_contradiction (Except.ok (Json.num 5)) = Except.error () ∧
    detect_contradiction (Except.ok (Json.obj [("detail", Json.str "note")]))
      = Except.ok { contradiction := false, detail := some (Json.str "note") } := by
  exact ⟨rfl, rfl⟩

/-- C9 witness: the fail-open and string-verdict branches at concrete
inputs. -/
theorem C9_detect_contradiction_witness :
    detect_contradiction (Except.error ())
      = Except.ok { contradiction := false, detail := none } ∧
    detect_contradiction
        (Except.ok (Json.obj [("contradiction", Json.str " YES "), ("detail", Json.null)]))
      = Except.ok { contradiction := true, detail := some Json.null } := by
  constructor
  · exact (C9_detect_contradiction (Except.error ())).1 rfl
  · have h := (C9_detect_contradiction
      (Except.ok (Json.obj [("contradiction", Json.str " YES "), ("detail", Json.null)]))).2.2.2.1
      [("contradiction", Json.str " YES "), ("detail", Json.null)] " YES " rfl rfl
    exact h.trans (by with_unfolding_all rfl)

/-! ### Claim C5: trajectory -/

/-- The accumulation loop of `_compute_trajectory`, characterised through
the overlapping-dimension filter. -/
theorem traj_fold_eq (cs : TimeScores) (prev : Dim → Option ℚ)
    (l : List Dim) (a : ℚ × ℚ × ℕ) :
    l.foldl
      (fun (a : ℚ × ℚ × ℕ) dim =>
        match (cs.dims dim).bind (·.score), prev dim with
        | some c, some p => (a.1 + c, a.2.1 + p, a.2.2 + 1)
        | _, _ => a) a
    = (a.1 + ((l.filter (fun d =>
          ((cs.dims d).bind (·.score)).isSome && (prev d).isSome)).map
            (fun d => ((cs.dims d).bind (·.score)).getD 0)).sum,
       a.2.1 + ((l.filter (fun d =>
          ((cs.dims d).bind (·.score)).isSome && (prev d).isSome)).map
            (fun d => (prev d).getD 0)).sum,
       a.2.2 + (l.filter (fun d =>
          ((cs.dims d).bind (·.score)).isSome && (prev d).isSome)).length) := by
  induction l generalizing a with
  | nil => simp
  | cons d t ih =>
    rcases hc : (cs.dims d).bind (·.score) with - | c <;>
      rcases hp : prev d with - | p <;>
      · rw [List.foldl_cons]
        simp only [hc, hp]
        rw [ih]
        simp [List.filter_cons, hc, hp]
        try constructor
        try ring_nf
        try constructor <;> ring_nf
        try omega

/-- The current scores dict used in the spec's concrete trajectory
examples: all four dimension scores 0.4. -/
def c5_curr : TimeScores :=
  { dims := fun _ => some { score := some (2/5), composite := none },
    bwat := none }

/-- C5: the trajectory is `baseline` without a previous analyzed
assessment; otherwise `_compute_trajectory` compares the means of the
overlapping dimensions: no overlap gives `stable`, delta above 0.05 gives
`improving`, below -0.05 `deteriorating`, otherwise `stable`; and the
spec's concrete examples hold. -/
theorem C5_trajectory (prevRec : Option PrevRecord) (current : TimeScores)
    (chg : ℚ) :
    (prevRec = none → trajectory_for prevRec current chg = "baseline") ∧
    (∀ p, prevRec = some p → p.embedding = false →
      trajectory_for prevRec current chg = "baseline") ∧
    (∀ p, prevRec = some p → p.embedding = true →
      trajectory_for prevRec current chg = compute_trajectory current p.dimScores chg) ∧
    (∀ prev : Dim → Option ℚ,
      (DIM_LIST.filter (fun d =>
          ((current.dims d).bind (·.score)).isSome && (prev d).isSome) = [] →
        compute_trajectory current prev chg = "stable") ∧
      (∀ ov, ov = DIM_LIST.filter (fun d =>
            ((current.dims d).bind (·.score)).isSome && (prev d).isSome) →
        ov ≠ [] →
        ((1/20 : ℚ) <
            (ov.map (fun d => ((current.dims d).bind (·.score)).getD 0)).sum / (ov.length : ℚ)
              - (ov.map (fun d => (prev d).getD 0)).sum / (ov.length : ℚ) →
          compute_trajectory current prev chg = "improving") ∧
        ((ov.map (fun d => ((current.dims d).bind (·.score)).getD 0)).sum / (ov.length : ℚ)
              - (ov.map (fun d => (prev d).getD 0)).sum / (ov.length : ℚ) < -(1/20) →
          compute_trajectory current prev chg = "deteriorating") ∧
        (-(1/20) ≤
            (ov.map (fun d => ((current.dims d).bind (·.score)).getD 0)).sum / (ov.length : ℚ)
              - (ov.map (fun d => (prev d).getD 0)).sum / (ov.length : ℚ) →
         (ov.map (fun d => ((current.dims d).bind (·.score)).getD 0)).sum / (ov.length : ℚ)
              - (ov.map (fun d => (prev d).getD 0)).sum / (ov.length : ℚ) ≤ 1/20 →
          compute_trajectory current prev chg = "stable"))) ∧
    compute_trajectory c5_curr (fun _ => some (1/5)) 0 = "improving" ∧
    compute_trajectory c5_curr (fun _ => some (2/5)) 0 = "stable" := by
  refine ⟨?_, ?_, ?_, ?_, ?_, ?_⟩
  · rintro rfl
    rfl
  · rintro p rfl hemb
    simp [trajectory_for, hemb]
  · rintro p rfl hemb
    simp [trajectory_for, hemb]
  · intro prev
    constructor
    · intro hov
      unfold compute_trajectory
      rw [traj_fold_eq, hov]
      simp
    · rintro ov rfl hne
      have hlen : (DIM_LIST.filter (fun d =>
          ((current.dims d).bind (·.score)).isSome && (prev d).isSome)).length ≠ 0 :=
        fun h => hne (List.length_eq_zero.mp h)
      refine ⟨?_, ?_, ?_⟩
      · intro hdelta
        unfold compute_trajectory
        rw [traj_fold_eq]
        simp only [zero_add, if_neg hlen]
        rw [if_pos hdelta]
      · intro hdelta
        unfold compute_trajectory
        rw [traj_fold_eq]
        simp only [zero_add, if_neg hlen]
        rw [if_neg (by linarith), if_pos hdelta]
      · intro h1 h2
        unfold compute_trajectory
        rw [traj_fold_eq]
        simp only [zero_add, if_neg hlen]
        rw [if_neg (by linarith), if_neg (by linarith)]
  · with_unfolding_all decide
  · with_unfolding_all decide

/-- C5 witness: baseline without an embedding, improving on the spec's
concrete inputs. -/
theorem C5_trajectory_witness :
    trajectory_for (some { embedding := false, dimScores := fun _ => some (1/5) })
      c5_curr 0 = "baseline" ∧
    compute_trajectory c5_curr (fun _ => some (1/5)) 0 = "improving" := by
  have h := C5_trajectory
    (some { embedding := false, dimScores := fun _ => some (1/5) }) c5_curr 0
  refine ⟨h.2.1 _ rfl rfl, ?_⟩
  have h4 := (h.2.2.2.1 (fun _ => some (1/5))).2 _ rfl (by decide)
  exact h4.1 (by with_unfolding_all decide)

/-! ### Claim C2: alert state machine -/

/-- Numeric rank of the four alert levels. -/
def level_rank : String → ℕ
  | "yellow" => 1
  | "orange" => 2
  | "red" => 3
  | _ => 0

/-- With no flagged condition, `_determine_alert` is the three-stage
pipeline base → trajectory → contradiction. -/
theorem determine_alert_noflag (trajectory : String) (ts : TimeScores)
    (contra : Contra) (cf : Option (List (String × Bool)))
    (hcf : flaggedList cf = []) :
    determine_alert trajectory ts contra cf
      = { level := (alert_contra contra
            (alert_traj trajectory (alert_base (alertBwatTotal ts)))).1,
          detail := (alert_contra contra
            (alert_traj trajectory (alert_base (alertBwatTotal ts)))).2 } := by
  unfold determine_alert
  rw [hcf]
  rfl

/-- Threshold characterisation of the base level. -/
theorem alert_base_level (t : ℤ) :
    ((alert_base t).1 = "red" ↔ 56 ≤ t) ∧
    ((alert_base t).1 = "orange" ↔ 47 ≤ t ∧ t < 56) ∧
    ((alert_base t).1 = "yellow" ↔ 34 ≤ t ∧ t < 47) ∧
    ((alert_base t).1 = "green" ↔ t < 34) ∧
    ((alert_base t).2 = none ↔ (alert_base t).1 = "green") := by
  unfold alert_base
  split_ifs with h1 h2 h3 <;> simp_all <;> omega

/-- The trajectory stage never lowers the level. -/
theorem alert_traj_rank_le (traj : String) (s : String × Option String) :
    level_rank s.1 ≤ level_rank (alert_traj traj s).1 := by
  unfold alert_traj
  split_ifs with h1 h2 h3 h4 <;> simp_all [level_rank]

/-- The contradiction stage never lowers the level. -/
theorem alert_contra_rank_le (c : Contra) (s : String × Option String) :
    level_rank s.1 ≤ level_rank (alert_contra c s).1 := by
  unfold alert_contra
  split_ifs with h1 h2 h3 <;> try simp_all [level_rank]
  rcases hs : s.2 with - | d <;> simp [level_rank]

/-- The four possible base pairs. -/
theorem alert_base_cases (t : ℤ) :
    alert_base t = ("red", some "Critical wound status — immediate clinical review required.") ∨
    alert_base t = ("orange", some "Severe wound — specialist evaluation recommended.") ∨
    alert_base t = ("yellow", some "Moderate wound — consider care plan review.") ∨
    alert_base t = ("green", none) := by
  unfold alert_base
  split_ifs <;> simp

/-- C2: red flags dominate with a detail naming the flagged conditions;
otherwise the base level follows the fixed BWAT thresholds (detail absent
only for green), a deteriorating trajectory escalates by exactly one step
with its stage-specific detail (red staying red), a detected contradiction
escalates green and yellow by one further step replacing the detail and
otherwise appends its message to the existing detail without changing the
level, and the final level is never below the base level. -/
theorem C2_determine_alert (trajectory : String) (ts : TimeScores)
    (contra : Contra) (cf : Option (List (String × Bool))) :
    (flaggedList cf ≠ [] →
      determine_alert trajectory ts contra cf
        = { level := "red",
            detail := some ("Critical visual flag detected: "
              ++ String.intercalate ", " (flaggedList cf) ++ ".") }) ∧
    (∀ fl k, cf = some fl → (k, true) ∈ fl → flaggedList cf ≠ []) ∧
    ((alert_base (alertBwatTotal ts)).1 = "red" ↔ 56 ≤ alertBwatTotal ts) ∧
    ((alert_base (alertBwatTotal ts)).1 = "orange" ↔
      47 ≤ alertBwatTotal ts ∧ alertBwatTotal ts < 56) ∧
    ((alert_base (alertBwatTotal ts)).1 = "yellow" ↔
      34 ≤ alertBwatTotal ts ∧ alertBwatTotal ts < 47) ∧
    ((alert_base (alertBwatTotal ts)).1 = "green" ↔ alertBwatTotal ts < 34) ∧
    ((alert_base (alertBwatTotal ts)).2 = none ↔
      (alert_base (alertBwatTotal ts)).1 = "green") ∧
    (flaggedList cf = [] →
      (trajectory ≠ "deteriorating" → contra.contradiction = false →
        determine_alert trajectory ts contra cf
          = { level := (alert_base (alertBwatTotal ts)).1,
              detail := (alert_base (alertBwatTotal ts)).2 }) ∧
      (trajectory = "deteriorating" → contra.contradiction = false →
        level_rank (determine_alert trajectory ts contra cf).level
          = min (level_rank (alert_base (alertBwatTotal ts)).1 + 1) 3) ∧
      (trajectory = "deteriorating" → contra.contradiction = false →
        (((alert_base (alertBwatTotal ts)).1 = "green" →
          determine_alert trajectory ts contra cf
            = { level := "yellow",
                detail := some "Wound is deteriorating since last visit." }) ∧
         ((alert_base (alertBwatTotal ts)).1 = "yellow" →
          determine_alert trajectory ts contra cf
            = { level := "orange",
                detail := some "Wound is deteriorating — reassess interventions." }) ∧
         ((alert_base (alertBwatTotal ts)).1 = "orange" →
          determine_alert trajectory ts contra cf
            = { level := "red",
                detail := some "Critical — wound deteriorating with severe BWAT score." }) ∧
         ((alert_base (alertBwatTotal ts)).1 = "red" →
          determine_alert trajectory ts contra cf
            = { level := "red", detail := (alert_base (alertBwatTotal ts)).2 }))) ∧
      (contra.contradiction = true →
        level_rank (determine_alert trajectory ts contra cf).level
          = (if (alert_traj trajectory (alert_base (alertBwatTotal ts))).1 = "green"
               ∨ (alert_traj trajectory (alert_base (alertBwatTotal ts))).1 = "yellow"
             then level_rank (alert_traj trajectory (alert_base (alertBwatTotal ts))).1 + 1
             else level_rank (alert_traj trajectory (alert_base (alertBwatTotal ts))).1)) ∧
      (contra.contradiction = true →
        (((alert_traj trajectory (alert_base (alertBwatTotal ts))).1 = "green" →
          determine_alert trajectory ts contra cf
            = { level := "yellow", detail := some (contra_msg contra) }) ∧
         ((alert_traj trajectory (alert_base (alertBwatTotal ts))).1 = "yellow" →
          determine_alert trajectory ts contra cf
            = { level := "orange",
                detail := some ("Moderate wound with contradiction. " ++ contra_msg contra) }) ∧
         (∀ d, (alert_traj trajectory (alert_base (alertBwatTotal ts))).1 ≠ "green" →
            (alert_traj trajectory (alert_base (alertBwatTotal ts))).1 ≠ "yellow" →
            (alert_traj trajectory (alert_base (alertBwatTotal ts))).2 = some d →
            determine_alert trajectory ts contra cf
              = { level := (alert_traj trajectory (alert_base (alertBwatTotal ts))).1,
                  detail := some (d ++ " " ++ contra_msg contra) }))) ∧
      level_rank (alert_base (alertBwatTotal ts)).1
        ≤ level_rank (determine_alert trajectory ts contra cf).level ∧
      ((determine_alert trajectory ts contra cf).detail = none ↔
        (determine_alert trajectory ts contra cf).level = "green")) := by
  obtain ⟨hb1, hb2, hb3, hb4, hb5⟩ := alert_base_level (alertBwatTotal ts)
  refine ⟨?_, ?_, hb1, hb2, hb3, hb4, hb5, ?_⟩
  · intro hne
    have hemp : (flaggedList cf).isEmpty = false := by
      rcases h : flaggedList cf with - | ⟨x, xs⟩
      · exact absurd h hne
      · rfl
    simp [determine_alert, hemp]
  · rintro fl k rfl hkmem hempty
    simp only [flaggedList] at hempty
    split_ifs at hempty with he
    · rw [List.isEmpty_iff] at he
      subst he
      cases hkmem
    · rw [List.map_eq_nil_iff] at hempty
      have := List.filter_eq_nil_iff.mp hempty (k, true) hkmem
      simp at this
  · intro hcf
    have hr := determine_alert_noflag trajectory ts contra cf hcf
    refine ⟨?_, ?_, ?_, ?_, ?_, ?_, ?_⟩
    · intro ht hc
      rw [hr]
      simp [alert_traj, alert_contra, ht, hc]
    · intro ht hc
      rw [hr]
      rcases alert_base_cases (alertBwatTotal ts) with h|h|h|h <;>
        simp [alert_traj, alert_contra, ht, hc, h, level_rank]
    · intro ht hc
      refine ⟨?_, ?_, ?_, ?_⟩ <;> intro hbase <;> rw [hr] <;>
        rcases alert_base_cases (alertBwatTotal ts) with h|h|h|h <;>
        simp_all [alert_traj, alert_contra]
    · intro hc
      rw [hr]
      by_cases ht : trajectory = "deteriorating" <;>
        rcases alert_base_cases (alertBwatTotal ts) with h|h|h|h <;>
        simp [alert_traj, alert_contra, ht, hc, h, level_rank]
    · intro hc
      refine ⟨?_, ?_, ?_⟩
      · intro hg
        rw [hr]
        simp [alert_contra, hc, hg]
      · intro hy
        rw [hr]
        simp [alert_contra, hc, hy]
      · intro d h1 h2 hd
        rw [hr]
        simp [alert_contra, hc, h1, h2, hd]
    · rw [hr]
      calc level_rank (alert_base (alertBwatTotal ts)).1
          ≤ level_rank (alert_traj trajectory (alert_base (alertBwatTotal ts))).1 :=
            alert_traj_rank_le trajectory (alert_base (alertBwatTotal ts))
        _ ≤ level_rank (alert_contra contra
              (alert_traj trajectory (alert_base (alertBwatTotal ts)))).1 :=
            alert_contra_rank_le contra
              (alert_traj trajectory (alert_base (alertBwatTotal ts)))
    · rw [hr]
      by_cases ht : trajectory = "deteriorating" <;>
        rcases hcontra : contra.contradiction with - | - <;>
        rcases alert_base_cases (alertBwatTotal ts) with h|h|h|h <;>
        simp [alert_traj, alert_contra, ht, hcontra, h, contra_msg]

/-- A scores dict with BWAT total 40 (base level yellow). -/
def c2_ts : TimeScores :=
  { dims := fun _ => none, bwat := some { items := fun _ => 3, total := 40 } }

/-- C2 witness: a set red flag forces red, and a deteriorating trajectory
escalates the yellow base by exactly one step. -/
theorem C2_determine_alert_witness :
    determine_alert "stable" c2_ts { contradiction := false, detail := none }
        (some [("worms", true)])
      = { level := "red",
          detail := some ("Critical visual flag detected: "
            ++ String.intercalate ", " (flaggedList (some [("worms", true)])) ++ ".") } ∧
    level_rank (determine_alert "deteriorating" c2_ts
        { contradiction := false, detail := none } none).level
      = min (level_rank (alert_base (alertBwatTotal c2_ts)).1 + 1) 3 := by
  constructor
  · exact (C2_determine_alert "stable" c2_ts
      { contradiction := false, detail := none } (some [("worms", true)])).1 (by decide)
  · exact ((C2_determine_alert "deteriorating" c2_ts
      { contradiction := false, detail := none } none).2.2.2.2.2.2.2 rfl).2.1 rfl rfl

/-! ### Claim C7: median aggregation -/

theorem pyMedian_perm {l l' : List ℤ} (h : l.Perm l') : pyMedian l = pyMedian l' := by
  unfold pyMedian
  have hs : l.insertionSort (· ≤ ·) = l'.insertionSort (· ≤ ·) :=
    List.eq_of_perm_of_sorted
      ((List.perm_insertionSort _ l).trans (h.trans (List.perm_insertionSort _ l').symm))
      (List.sorted_insertionSort _ l) (List.sorted_insertionSort _ l')
  rw [hs]

theorem pyMedian_bounds {l : List ℤ} {lo hi : ℤ} (hne : l ≠ [])
    (h : ∀ x ∈ l, lo ≤ x ∧ x ≤ hi) :
    (lo : ℚ) ≤ pyMedian l ∧ pyMedian l ≤ (hi : ℚ) := by
  unfold pyMedian
  have hperm : (l.insertionSort (· ≤ ·)).Perm l := List.perm_insertionSort _ l
  have hmem : ∀ x ∈ l.insertionSort (· ≤ ·), lo ≤ x ∧ x ≤ hi :=
    fun x hx => h x (hperm.mem_iff.mp hx)
  have hlen : (l.insertionSort (· ≤ ·)).length = l.length := hperm.length_eq
  have hpos : 0 < (l.insertionSort (· ≤ ·)).length := by
    rw [hlen]
    exact List.length_pos.mpr hne
  simp only []
  split_ifs with hodd
  · have hidx : (l.insertionSort (· ≤ ·)).length / 2 < (l.insertionSort (· ≤ ·)).length :=
      Nat.div_lt_self hpos one_lt_two
    rw [List.getD_eq_getElem _ _ hidx]
    obtain ⟨h1, h2⟩ := hmem _ (List.getElem_mem hidx)
    exact ⟨by exact_mod_cast h1, by exact_mod_cast h2⟩
  · have h2pos : 2 ≤ (l.insertionSort (· ≤ ·)).length := by omega
    have hidx2 : (l.insertionSort (· ≤ ·)).length / 2 < (l.insertionSort (· ≤ ·)).length :=
      Nat.div_lt_self hpos one_lt_two
    have hidx1 : (l.insertionSort (· ≤ ·)).length / 2 - 1 < (l.insertionSort (· ≤ ·)).length := by
      omega
    rw [List.getD_eq_getElem _ _ hidx1, List.getD_eq_getElem _ _ hidx2]
    obtain ⟨ha1, ha2⟩ := hmem _ (List.getElem_mem hidx1)
    obtain ⟨hb1, hb2⟩ := hmem _ (List.getElem_mem hidx2)
    have key : ∀ a b : ℤ, lo ≤ a → a ≤ hi → lo ≤ b → b ≤ hi →
        ((lo : ℚ) ≤ ((a + b : ℤ) : ℚ) / 2 ∧ ((a + b : ℤ) : ℚ) / 2 ≤ (hi : ℚ)) := by
      intro a b h1 h2 h3 h4
      have q1 : (lo : ℚ) ≤ (a : ℚ) := by exact_mod_cast h1
      have q2 : (a : ℚ) ≤ (hi : ℚ) := by exact_mod_cast h2
      have q3 : (lo : ℚ) ≤ (b : ℚ) := by exact_mod_cast h3
      have q4 : (b : ℚ) ≤ (hi : ℚ) := by exact_mod_cast h4
      constructor
      · rw [le_div_iff (by norm_num : (0:ℚ) < 2)]
        push_cast
        linarith
      · rw [div_le_iff (by norm_num : (0:ℚ) < 2)]
        push_cast
        linarith
    exact ⟨(key _ _ ha1 ha2 hb1 hb2).1, (key _ _ ha1 ha2 hb1 hb2).2⟩

/-- The `if item in c` filter is the identity on total candidate maps. -/
theorem filterMap_inj_eq (cands : List (BItem → ℤ)) (i : BItem) :
    ((cands.map (fun c => (fun j => some (c j) : ItemMap))).filterMap (fun c => c i))
      = cands.map (fun c => c i) := by
  induction cands with
  | nil => rfl
  | cons c t ih => simp [List.filterMap_cons, ih]

theorem aggregate_bwat_items_inj (cands : List (BItem → ℤ)) (hne : cands ≠ [])
    (i : BItem) :
    aggregate_bwat_items (cands.map (fun c => (fun j => some (c j) : ItemMap))) i
      = pyRound (pyMedian (cands.map (fun c => c i))) := by
  unfold aggregate_bwat_items
  simp only []
  rw [filterMap_inj_eq]
  have hemp : (cands.map (fun c => c i)).isEmpty = false := by
    rcases cands with - | ⟨c, cs⟩
    · exact absurd rfl hne
    · rfl
  rw [hemp]
  rfl

/-- Looking an item up in a payload rebuilt from a full in-range item map
recovers exactly that item's value. -/
theorem collectItem_mkItemData (items : BItem → ℤ) (total : ℤ)
    (h : ∀ i, 1 ≤ items i ∧ items i ≤ 5) (i : BItem) :
    collectItem (mkItemData items total) i = some (items i) := by
  have hj : jget (mkItemData items total) (itemName i)
      = some (JVal.num ((items i : ℤ) : ℚ)) := by
    cases i <;> simp [mkItemData, BWAT_13_ITEMS, itemName, jget, List.find?]
  unfold collectItem rawItemVal
  rw [hj]
  simp only [reduceCtorEq, if_false, pyRound_intCast]
  rw [if_pos (h i)]

/-- Renormalising a payload built from a full in-range item map succeeds
and returns exactly those items with `total` recomputed as their sum. -/
theorem normalize_mkItemData (items : BItem → ℤ) (total : ℤ)
    (h : ∀ i, 1 ≤ items i ∧ items i ≤ 5) :
    normItems (mkItemData items total) = items ∧
    normalize_bwat_scores (mkItemData items total) 13
      = some { dims := fun d => some
                 { score := some (dimScore01 (mkItemData items total) d),
                   composite := some (dimComposite (mkItemData items total) d) },
               bwat := some { items := items,
                              total := (BWAT_13_ITEMS.map items).sum } } := by
  have hni : normItems (mkItemData items total) = items := by
    funext i
    simp [normItems, collectItem_mkItemData items total h i]
  refine ⟨hni, ?_⟩
  unfold normalize_bwat_scores
  have hfound : normFound (mkItemData items total) = 13 := by
    unfold normFound
    rw [List.filter_eq_self.mpr]
    · rfl
    · intro i hi
      simp [collectItem_mkItemData items total h i]
  rw [hfound]
  rw [if_neg (by omega)]
  rw [hni]

/-- C7: aggregation takes the rounded per-item median across candidates,
renormalisation recomputes `total` as the sum of the aggregated items, and
the whole aggregation block is invariant under permutations of the
candidate list. -/
theorem C7_aggregation (cands : List (BItem → ℤ)) (hne : cands ≠ [])
    (hrange : ∀ c ∈ cands, ∀ i, 1 ≤ c i ∧ c i ≤ 5)
    (hnd : ∀ c ∈ cands, is_degenerate_bwat c = false) :
    (∀ i, aggregate_bwat_items (cands.map (fun c => (fun j => some (c j) : ItemMap))) i
        = pyRound (pyMedian (cands.map (fun c => c i)))) ∧
    (∃ r, aggregate_candidates cands = some r ∧
      r.bwat = some
        { items := aggregate_bwat_items (cands.map (fun c => (fun j => some (c j) : ItemMap))),
          total := (BWAT_13_ITEMS.map (aggregate_bwat_items
            (cands.map (fun c => (fun j => some (c j) : ItemMap))))).sum }) ∧
    (∀ cands', cands.Perm cands' →
      aggregate_candidates cands = aggregate_candidates cands') := by
  have hinj := aggregate_bwat_items_inj cands hne
  have haggrange : ∀ i, 1 ≤ aggregate_bwat_items
      (cands.map (fun c => (fun j => some (c j) : ItemMap))) i ∧
      aggregate_bwat_items (cands.map (fun c => (fun j => some (c j) : ItemMap))) i ≤ 5 := by
    intro i
    rw [hinj i]
    have hlne : cands.map (fun c => c i) ≠ [] := by
      intro hmap
      exact hne (List.map_eq_nil_iff.mp hmap)
    have hb : ∀ x ∈ cands.map (fun c => c i), (1:ℤ) ≤ x ∧ x ≤ 5 := by
      intro x hx
      obtain ⟨c, hc, rfl⟩ := List.mem_map.mp hx
      exact hrange c hc i
    obtain ⟨h1, h2⟩ := pyMedian_bounds hlne hb
    exact ⟨le_pyRound_of_le h1, pyRound_le_of_le h2⟩
  refine ⟨hinj, ?_, ?_⟩
  · obtain ⟨-, hnorm⟩ := normalize_mkItemData _
      ((BWAT_13_ITEMS.map (aggregate_bwat_items
        (cands.map (fun c => (fun j => some (c j) : ItemMap))))).sum) haggrange
    exact ⟨_, hnorm, rfl⟩
  · intro cands' hperm
    have hagg : aggregate_bwat_items (cands.map (fun c => (fun j => some (c j) : ItemMap)))
        = aggregate_bwat_items (cands'.map (fun c => (fun j => some (c j) : ItemMap))) := by
      funext i
      unfold aggregate_bwat_items
      simp only []
      rw [filterMap_inj_eq, filterMap_inj_eq]
      have hp : (cands.map (fun c => c i)).Perm (cands'.map (fun c => c i)) := hperm.map _
      have hemp : (cands.map (fun c => c i)).isEmpty = (cands'.map (fun c => c i)).isEmpty := by
        rcases h1 : cands.map (fun c => c i) with - | ⟨x, xs⟩ <;>
          rcases h2 : cands'.map (fun c => c i) with - | ⟨y, ys⟩ <;>
          simp_all
      rw [hemp, pyMedian_perm hp]
    unfold aggregate_candidates
    rw [hagg]

/-- A non-degenerate candidate: size 1, all other items 3. -/
def c7_a : BItem → ℤ := fun i => if i = BItem.size then 1 else 3

/-- A non-degenerate candidate: size 5, all other items 3. -/
def c7_b : BItem → ℤ := fun i => if i = BItem.size then 5 else 3

/-- C7 witness: the aggregated size item of two concrete candidates is the
rounded median. -/
theorem C7_aggregation_witness :
    aggregate_bwat_items ([c7_a, c7_b].map (fun c => (fun j => some (c j) : ItemMap)))
        BItem.size
      = pyRound (pyMedian ([c7_a, c7_b].map (fun c => c BItem.size))) := by
  have h := C7_aggregation [c7_a, c7_b] (by simp)
    (by
      intro c hc i
      simp only [List.mem_cons, List.not_mem_nil, or_false] at hc
      rcases hc with rfl | rfl <;> by_cases hi : i = BItem.size <;>
        simp [c7_a, c7_b, hi])
    (by
      intro c hc
      simp only [List.mem_cons, List.not_mem_nil, or_false] at hc
      rcases hc with rfl | rfl <;> decide)
  exact h.1 BItem.size

/-! ### Claim C6: discarding high-total estimates -/

theorem est_items_range (ts : TimeScores) (i : BItem) :
    1 ≤ est_items ts i ∧ est_items ts i ≤ 5 := by
  unfold est_items
  exact ⟨le_max_left 1 _, max_le (by norm_num) (min_le_left 5 _)⟩

/-- The estimator always succeeds, returning the clamped items with their
sum as total. -/
theorem time_scores_to_bwat_estimate_eq (ts : TimeScores) :
    time_scores_to_bwat_estimate ts
      = some { dims := fun d => some
                 { score := some (dimScore01
                     (mkItemData (est_items ts) ((BWAT_13_ITEMS.map (est_items ts)).sum)) d),
                   composite := some (dimComposite
                     (mkItemData (est_items ts) ((BWAT_13_ITEMS.map (est_items ts)).sum)) d) },
               bwat := some { items := est_items ts,
                              total := (BWAT_13_ITEMS.map (est_items ts)).sum } } :=
  (normalize_mkItemData (est_items ts) ((BWAT_13_ITEMS.map (est_items ts)).sum)
    (est_items_range ts)).2

/-- C6 (amended): the legacy fallback of `classify_time` never returns an
estimated `_bwat` block with total ≥ 60 — any returned block with total
≥ 60 was already present in a parsed attempt — while the orchestrator's
Step-2b path attaches the estimate unconditionally, with no total check. -/
theorem C6_estimate_discard :
    (∀ (atts : List (Except Unit TimeScores)) (s : TimeScores) (b : BwatBlock),
      legacy_go atts = Except.ok s → s.bwat = some b → 60 ≤ b.total →
      ∃ sc, Except.ok sc ∈ atts ∧ sc.bwat = some b) ∧
    (∀ (ts : TimeScores) (ft : Option TimeScores),
      step2b_has_bwat ts = false → all_zero_time ts = false →
      (step2b ts ft).bwat = (time_scores_to_bwat_estimate ts).bind (fun r => r.bwat)) := by
  constructor
  · intro atts
    induction atts with
    | nil =>
      intro s b hgo
      cases hgo
    | cons a rest ih =>
      intro s b hgo hb ht
      rcases a with u | sc
      · simp only [legacy_go] at hgo
        obtain ⟨sc, hmem, hsb⟩ := ih s b hgo hb ht
        exact ⟨sc, List.mem_cons_of_mem _ hmem, hsb⟩
      · simp only [legacy_go] at hgo
        rcases hscb : sc.bwat with - | b0
        · rw [hscb] at hgo
          rw [time_scores_to_bwat_estimate_eq sc] at hgo
          simp only [] at hgo
          split_ifs at hgo with hge
          · obtain ⟨sc', hmem, hsb⟩ := ih s b hgo hb ht
            exact ⟨sc', List.mem_cons_of_mem _ hmem, hsb⟩
          · cases hgo
            simp only [attachEst] at hb
            have hbe := Option.some.inj hb
            rw [← hbe] at ht
            simp only [] at ht
            omega
        · rw [hscb] at hgo
          injection hgo with hgo'
          subst hgo'
          exact ⟨sc, List.mem_cons_self _ _, hb⟩
  · intro ts ft h1 h2
    unfold step2b
    rw [h1, h2]
    simp only [Bool.not_false, Bool.and_self, if_true]
    rw [time_scores_to_bwat_estimate_eq ts]
    rfl

/-- The Step-2b input of the counterexample: all four dimension scores
0.01, no item-level data. -/
def c6_ts : TimeScores :=
  { dims := fun _ => some { score := some (1/100), composite := none },
    bwat := none }

/-- C6 counterexample to the claim as stated: the orchestrator's Step-2b
estimation path persists an estimated `_bwat` with total 65 ≥ 60. -/
theorem C6_counterexample :
    c6_ts.bwat = none ∧
    step2b_has_bwat c6_ts = false ∧
    all_zero_time c6_ts = false ∧
    ((step2b c6_ts none).bwat.map (fun b => b.total)) = some 65 ∧
    (60 : ℤ) ≤ 65 := by
  refine ⟨rfl, rfl, by with_unfolding_all decide, by with_unfolding_all decide, by norm_num⟩

/-- A parsed attempt that already carries a high `_bwat` total. -/
def c6_hi : TimeScores :=
  { dims := fun _ => none, bwat := some { items := fun _ => 5, total := 65 } }

/-- C6 witness: both amended parts at concrete inputs. -/
theorem C6_estimate_discard_witness :
    (step2b c6_ts none).bwat
      = (time_scores_to_bwat_estimate c6_ts).bind (fun r => r.bwat) ∧
    ∃ sc, Except.ok sc ∈ ([Except.ok c6_hi] : List (Except Unit TimeScores)) ∧
      sc.bwat = some { items := fun _ => (5:ℤ), total := 65 } := by
  constructor
  · exact C6_estimate_discard.2 c6_ts none rfl (by with_unfolding_all decide)
  · exact C6_estimate_discard.1 [Except.ok c6_hi] c6_hi
      { items := fun _ => (5:ℤ), total := 65 } rfl rfl (by norm_num)

/-! ### Claim C1: degenerate outputs escaping classify_time -/

/-- A non-degenerate parsed attempt (size 2, all other items 3). -/
def c1_nondegen : TimeScores :=
  { dims := fun _ => some { score := some (7/10), composite := some 2 },
    bwat := some { items := fun i => if i = BItem.size then 2 else 3, total := 38 } }

/-- A degenerate parsed attempt: all 13 items equal to 3. -/
def c1_degen : TimeScores :=
  { dims := fun _ => some { score := some (1/2), composite := some 3 },
    bwat := some { items := fun _ => 3, total := 39 } }

/-- C1: `classify_time` CAN return a canonical score set whose 13 `_bwat`
items are all identical.  With a non-degenerate first attempt and a
degenerate second attempt (the remaining attempts failing), the single
collected candidate makes the `len(candidates) == 1` branch return
`last_scores` — which the degenerate second parse overwrote, despite the
"skipping" guard — so the degenerate all-3 set is returned. -/
theorem C1_classify_time_returns_degenerate :
    classify_time
        [Except.ok c1_nondegen, Except.ok c1_degen,
         Except.error (), Except.error (), Except.error ()] []
      = Except.ok c1_degen ∧
    is_degenerate_bwat (fun _ => (3:ℤ)) = true ∧
    c1_degen.bwat = some { items := fun _ => (3:ℤ), total := 39 } ∧
    is_degenerate_bwat (fun i => if i = BItem.size then (2:ℤ) else 3) = false := by
  exact ⟨rfl, by decide, rfl, by decide⟩

end WoundMonitor
